import Mathlib

/-!
Shallow embedding of the submission-ingestion service in `src/main.py`
(FastAPI handler `create_submission`, pydantic models `DataItem`,
`FilterModel`, `Submission`, and the psycopg2-backed insert into the
`questions` table created by `init_db`).

External collaborators (the base64 decoder, the Supabase storage client and
the PostgreSQL connection) are modelled as explicit parameters: an `Env`
bundles the fallible store calls and an oracle `DbOracle` decides which of
the three database steps (execute / commit / fetchone) fails externally.
The handler is a pure function from those parameters, the fresh UUID and
the current database state to the new database state, the list of upload
calls performed, and either the success response or the raised
`HTTPException` (status code plus detail string).
-/

namespace Vupi

/-- Bytes produced by `base64.b64decode`; the content is opaque to the
handler, it is only forwarded to the upload call. -/
abbrev Bytes := List Nat

/-- `IMAGE_BUCKET = os.getenv("IMAGE_BUCKET") or "vupi-questions-images"`:
the configured bucket name (modelled at its default). -/
def IMAGE_BUCKET : String := "vupi-questions-images"

/-- Pydantic model `DataItem` (`src/main.py` lines 92-95): one content item
`{id: int, value: str, type: str}`.  The processed items appended to
`processed_data` are dicts of the same shape, so the same structure is used
for both. -/
structure DataItem where
  id : Int
  value : String
  type : String
deriving Repr, DecidableEq

/-- Pydantic model `FilterModel` (`src/main.py` lines 85-90). -/
structure FilterModel where
  materia : List String
  assunto : List String
  subAssunto : List String
  faculdade : String
  ano : String
deriving Repr, DecidableEq

/-- Pydantic model `Submission` (`src/main.py` lines 97-99). -/
structure Submission where
  data : List DataItem
  filter : FilterModel
deriving Repr, DecidableEq

/-- A raised `fastapi.HTTPException`: status code and detail string. -/
structure HErr where
  status : Nat
  detail : String
deriving Repr, DecidableEq

/-- Outcome of `supabase_storage.storage.from_(IMAGE_BUCKET).upload(...)`:
either the call raised (with the exception text), or it returned a result
`res`, modelled by its truthiness and by the text of the exception the
`if not res` branch would produce from it. -/
inductive UploadOutcome where
  | raised (msg : String)
  | returned (truthy : Bool) (innerMsg : String)
deriving Repr, DecidableEq

/-- One invocation of the storage upload call: bucket, object name and
decoded bytes, recorded in invocation order. -/
structure UploadCall where
  bucket : String
  name : String
  bytes : Bytes
deriving Repr, DecidableEq

/-- The external collaborators used inside the per-item loop:
`base64.b64decode` (fails with the exception text on invalid base64),
the storage upload, and `get_public_url`.  Per the collaborator interface,
`get_public_url` is pure URL construction and cannot fail. -/
structure Env where
  b64decode : String → Except String Bytes
  upload : String → String → Bytes → UploadOutcome
  getPublicUrl : String → String → String

/-- Lines 139-146: the `try`/`except` around the upload.  A raising call
becomes a 500 `HTTPException` with detail `f"Error uploading image: {e}"`;
a falsy result raises inside the `try` and is re-wrapped by the same
`except` clause, with the same detail prefix. -/
def uploadStep (env : Env) (nm : String) (bs : Bytes) : Except HErr Unit :=
  match env.upload IMAGE_BUCKET nm bs with
  | UploadOutcome.raised msg =>
      Except.error ⟨500, "Error uploading image: " ++ msg⟩
  | UploadOutcome.returned truthy innerMsg =>
      if truthy then Except.ok ()
      else Except.error ⟨500, "Error uploading image: " ++ innerMsg⟩

/-- The object name `f"{question_uuid}_{image_counter}.png"` (lines
133-136; both branches of the `if image_counter == 1` produce the same
string). -/
def fname (uuid : String) (n : Nat) : String :=
  uuid ++ "_" ++ toString n ++ ".png"

/-- Python's `str.lower()`: lower-case the string character by character
(written over the character list, which is how `String.toLower` maps
`Char.toLower` over the string). -/
def lowerStr (s : String) : String :=
  ⟨s.data.map Char.toLower⟩

/-- `item.type.lower() == "image"` (line 126). -/
def isImage (it : DataItem) : Bool :=
  lowerStr it.type == "image"

/-- The per-item loop of `create_submission` (lines 123-152), parameterised
by the running `image_counter`.  Returns the upload calls performed (also
the ones that raised) and either the first raised `HTTPException` or the
final `processed_data` list.  For an image item: decode (400 on failure),
assign the object name from the current counter, increment the counter,
upload (500 on failure), resolve the public URL and append the item with
its `value` replaced; any other item is appended unchanged. -/
def processItems (env : Env) (uuid : String) :
    List DataItem → Nat → List UploadCall × Except HErr (List DataItem)
  | [], _ => ([], Except.ok [])
  | it :: rest, c =>
    if isImage it then
      match env.b64decode it.value with
      | Except.error e =>
          ([], Except.error ⟨400, "Error decoding image data: " ++ e⟩)
      | Except.ok bs =>
        let nm := fname uuid c
        let call : UploadCall := ⟨IMAGE_BUCKET, nm, bs⟩
        match uploadStep env nm bs with
        | Except.error he => ([call], Except.error he)
        | Except.ok _ =>
          let url := env.getPublicUrl IMAGE_BUCKET nm
          let r := processItems env uuid rest (c + 1)
          (call :: r.1,
            match r.2 with
            | Except.error he => Except.error he
            | Except.ok out => Except.ok (⟨it.id, url, it.type⟩ :: out))
    else
      let r := processItems env uuid rest c
      (r.1,
        match r.2 with
        | Except.error he => Except.error he
        | Except.ok out => Except.ok (⟨it.id, it.value, it.type⟩ :: out))

/-- Python values as they appear in the `record` dict: the filter fields
are bound by the tuple-producing assignments of lines 116-120 (each line
ends in a comma, so each name is bound to a one-element tuple). -/
inductive PyVal where
  | str (s : String)
  | list (vs : List PyVal)
  | tuple (vs : List PyVal)

/-- The `record` dict assembled at lines 155-163. -/
structure RecordDict where
  question_id : String
  materia : PyVal
  assunto : PyVal
  sub_assunto : PyVal
  faculdade : PyVal
  ano : PyVal
  data : List DataItem

/-- Lines 116-120 and 155-163: each filter field is wrapped in a
one-element tuple by the trailing comma on its assignment, and the record
is assembled from those tuples plus `question_uuid` and `processed_data`. -/
def assembleRecord (uuid : String) (flt : FilterModel)
    (processed : List DataItem) : RecordDict :=
  { question_id := uuid
  , materia := PyVal.tuple [PyVal.list (flt.materia.map PyVal.str)]
  , assunto := PyVal.tuple [PyVal.list (flt.assunto.map PyVal.str)]
  , sub_assunto := PyVal.tuple [PyVal.list (flt.subAssunto.map PyVal.str)]
  , faculdade := PyVal.tuple [PyVal.str flt.faculdade]
  , ano := PyVal.tuple [PyVal.str flt.ano]
  , data := processed }

/-- A SQL value as stored in a column of the `questions` table. -/
inductive SqlVal where
  | text (s : String)
  | textArray (xs : List String)
deriving Repr, DecidableEq

/-- A string element of an adapted array parameter. -/
def strOf : PyVal → Option String
  | PyVal.str s => some s
  | _ => none

/-- All elements of an adapted array parameter, as strings. -/
def strsOf : List PyVal → Option (List String)
  | [] => some []
  | v :: vs =>
    match strOf v, strsOf vs with
    | some s, some ss => some (s :: ss)
    | _, _ => none

/-- psycopg2 parameter adaptation composed with PostgreSQL expression
evaluation, for the `%s` placeholders of the insert (lines 167-179):
a string renders as a text literal; a list of strings renders as
`ARRAY[...]`; a one-element tuple renders as `(expr)` — psycopg2's tuple
adapter joins the adapted items inside parentheses — and a parenthesised
single SQL expression evaluates to the expression itself, so the stored
value is that of the inner item.  Anything else has no well-typed stored
value for this schema. -/
def adaptParam : PyVal → Option SqlVal
  | PyVal.str s => some (SqlVal.text s)
  | PyVal.list vs => (strsOf vs).map SqlVal.textArray
  | PyVal.tuple [v] => adaptParam v
  | _ => none

/-- One row of the `questions` table (schema created by `init_db`,
lines 63-75): serial surrogate `id`, unique `question_id`, the five
filter columns, and the JSONB `data` column holding the processed items
(the content serialised by `json.dumps` at line 178). -/
structure SqlRow where
  id : Nat
  question_id : String
  materia : SqlVal
  assunto : SqlVal
  sub_assunto : SqlVal
  faculdade : SqlVal
  ano : SqlVal
  data : List DataItem
deriving Repr, DecidableEq

/-- The committed contents of the `questions` table plus the next value of
the serial `id` sequence. -/
structure DbState where
  rows : List SqlRow
  nextId : Nat
deriving Repr, DecidableEq

/-- External failures of the three database steps of lines 171-181:
`cursor.execute`, `db.commit()` and `cursor.fetchone()`; `some e` means the
step raises with exception text `e`. -/
structure DbOracle where
  executeFail : Option String
  commitFail : Option String
  fetchFail : Option String
deriving Repr, DecidableEq

/-- `cursor.execute(insert_query, ...)` (lines 171-179): fails if the
oracle makes it raise, if a parameter has no well-typed stored value, or if
the `UNIQUE` constraint on `question_id` is violated; otherwise produces
the pending row with the next serial id. -/
def executeInsert (ora : DbOracle) (st : DbState) (r : RecordDict) :
    Except String SqlRow :=
  match ora.executeFail with
  | some e => Except.error e
  | none =>
    match adaptParam r.materia, adaptParam r.assunto, adaptParam r.sub_assunto,
        adaptParam r.faculdade, adaptParam r.ano with
    | some m, some a, some sa, some f, some an =>
      if st.rows.any (fun row => row.question_id == r.question_id) then
        Except.error "duplicate key value violates unique constraint questions_question_id_key"
      else
        Except.ok ⟨st.nextId, r.question_id, m, a, sa, f, an, r.data⟩
    | _, _, _, _, _ => Except.error "can't adapt parameter"

/-- The persistence block of lines 166-187: execute the insert, commit,
then `fetchone()["id"]`.  Any raised exception is caught, `db.rollback()`
runs, and a 500 `HTTPException` with detail
`f"Error inserting record: {e}"` is raised.  A failure at execute or
commit leaves the table unchanged (the open transaction is discarded), but
`fetchone` runs after `db.commit()`, so when it fails the committed row
stays in the table and the rollback is a no-op on a fresh transaction. -/
def persistRecord (ora : DbOracle) (st : DbState) (r : RecordDict) :
    DbState × Except HErr Nat :=
  match executeInsert ora st r with
  | Except.error e => (st, Except.error ⟨500, "Error inserting record: " ++ e⟩)
  | Except.ok row =>
    match ora.commitFail with
    | some e => (st, Except.error ⟨500, "Error inserting record: " ++ e⟩)
    | none =>
      let st2 : DbState := ⟨st.rows ++ [row], st.nextId + 1⟩
      match ora.fetchFail with
      | some e => (st2, Except.error ⟨500, "Error inserting record: " ++ e⟩)
      | none => (st2, Except.ok row.id)

/-- The success body `{"message": "Submission created successfully",
"submission_id": inserted_id}` (line 189). -/
structure SuccessResp where
  message : String
  submission_id : Nat
deriving Repr, DecidableEq

/-- The handler `create_submission` (lines 109-189), after request
validation: given the collaborators, the fresh `uuid.uuid4()` value and the
current table state, process the items, assemble the record, persist it
and return the success body; any raised `HTTPException` is returned as the
error component, together with the resulting table state and the upload
calls that were performed. -/
def create_submission (env : Env) (ora : DbOracle) (uuid : String)
    (st : DbState) (sub : Submission) :
    DbState × List UploadCall × Except HErr SuccessResp :=
  match processItems env uuid sub.data 1 with
  | (calls, Except.error he) => (st, calls, Except.error he)
  | (calls, Except.ok processed) =>
    match persistRecord ora st (assembleRecord uuid sub.filter processed) with
    | (st2, Except.error he) => (st2, calls, Except.error he)
    | (st2, Except.ok i) =>
        (st2, calls, Except.ok ⟨"Submission created successfully", i⟩)

/-! ### Request validation boundary

The pydantic models of lines 85-99 describe the accepted request shape;
the rejection of a non-matching body happens in the framework in front of
`create_submission`, so the boundary itself is modelled from the spec. -/

/-- A JSON value, the shape of an inbound request body. -/
inductive Json where
  | null
  | bool (b : Bool)
  | num (n : Int)
  | str (s : String)
  | arr (xs : List Json)
  | obj (fields : List (String × Json))

/-- First binding of a key in a JSON object. -/
def lookupField : List (String × Json) → String → Option Json
  | [], _ => none
  | (k, v) :: rest, key => if k == key then some v else lookupField rest key

/-- A required field: present, or a validation error naming it. -/
def parseField (fields : List (String × Json)) (key : String) :
    Except String Json :=
  match lookupField fields key with
  | some v => Except.ok v
  | none => Except.error ("field required: " ++ key)

/-- An `int`-typed pydantic field. -/
def asInt : Json → Except String Int
  | Json.num n => Except.ok n
  | _ => Except.error "value is not a valid integer"

/-- A `str`-typed pydantic field. -/
def asStr : Json → Except String String
  | Json.str s => Except.ok s
  | _ => Except.error "value is not a valid string"

/-- Validation of one `DataItem` (`{id: int, value: str, type: str}`). -/
def parseDataItem : Json → Except String DataItem
  | Json.obj fields =>
    (match parseField fields "id", parseField fields "value",
        parseField fields "type" with
    | Except.ok jid, Except.ok jval, Except.ok jty =>
      (match asInt jid, asStr jval, asStr jty with
      | Except.ok i, Except.ok v, Except.ok t => Except.ok ⟨i, v, t⟩
      | Except.error e, _, _ => Except.error e
      | _, Except.error e, _ => Except.error e
      | _, _, Except.error e => Except.error e)
    | Except.error e, _, _ => Except.error e
    | _, Except.error e, _ => Except.error e
    | _, _, Except.error e => Except.error e)
  | _ => Except.error "value is not a valid dict"

/-- Validation of a list of items, in order, stopping at the first bad
one. -/
def parseItems : List Json → Except String (List DataItem)
  | [] => Except.ok []
  | j :: rest =>
    match parseDataItem j, parseItems rest with
    | Except.ok it, Except.ok its => Except.ok (it :: its)
    | Except.error e, _ => Except.error e
    | _, Except.error e => Except.error e

/-- Validation of a list of strings. -/
def parseStrs : List Json → Except String (List String)
  | [] => Except.ok []
  | j :: rest =>
    match asStr j, parseStrs rest with
    | Except.ok s, Except.ok ss => Except.ok (s :: ss)
    | Except.error e, _ => Except.error e
    | _, Except.error e => Except.error e

/-- A `List[str]`-typed pydantic field, elementwise. -/
def asStrs : Json → Except String (List String)
  | Json.arr xs => parseStrs xs
  | _ => Except.error "value is not a valid list"

/-- Validation of the `FilterModel`. -/
def parseFilter : Json → Except String FilterModel
  | Json.obj fields =>
    (match parseField fields "materia", parseField fields "assunto",
        parseField fields "subAssunto", parseField fields "faculdade",
        parseField fields "ano" with
    | Except.ok jm, Except.ok ja, Except.ok js, Except.ok jf, Except.ok jy =>
      (match asStrs jm, asStrs ja, asStrs js, asStr jf, asStr jy with
      | Except.ok m, Except.ok a, Except.ok s, Except.ok f, Except.ok y =>
          Except.ok ⟨m, a, s, f, y⟩
      | Except.error e, _, _, _, _ => Except.error e
      | _, Except.error e, _, _, _ => Except.error e
      | _, _, Except.error e, _, _ => Except.error e
      | _, _, _, Except.error e, _ => Except.error e
      | _, _, _, _, Except.error e => Except.error e)
    | Except.error e, _, _, _, _ => Except.error e
    | _, Except.error e, _, _, _ => Except.error e
    | _, _, Except.error e, _, _ => Except.error e
    | _, _, _, Except.error e, _ => Except.error e
    | _, _, _, _, Except.error e => Except.error e)
  | _ => Except.error "value is not a valid dict"

/-- Validation of the whole `Submission` request body. -/
def parseSubmission : Json → Except String Submission
  | Json.obj fields =>
    (match parseField fields "data", parseField fields "filter" with
    | Except.ok jd, Except.ok jf =>
      (match jd with
      | Json.arr xs =>
        (match parseItems xs, parseFilter jf with
        | Except.ok items, Except.ok flt => Except.ok ⟨items, flt⟩
        | Except.error e, _ => Except.error e
        | _, Except.error e => Except.error e)
      | _ => Except.error "data is not a valid list")
    | Except.error e, _ => Except.error e
    | _, Except.error e => Except.error e)
  | _ => Except.error "body is not a valid dict"

/-- A present field satisfying a shape check. -/
def fieldIs (fields : List (String × Json)) (key : String)
    (p : Json → Bool) : Bool :=
  match lookupField fields key with
  | some v => p v
  | none => false

/-- The JSON is an integer. -/
def isIntJson : Json → Bool
  | Json.num _ => true
  | _ => false

/-- The JSON is a string. -/
def isStrJson : Json → Bool
  | Json.str _ => true
  | _ => false

/-- The JSON is a list of strings. -/
def isStrListJson : Json → Bool
  | Json.arr xs => xs.all isStrJson
  | _ => false

/-- Declarative reading of the `DataItem` shape of §3. -/
def itemShaped : Json → Bool
  | Json.obj fields =>
      fieldIs fields "id" isIntJson && fieldIs fields "value" isStrJson &&
        fieldIs fields "type" isStrJson
  | _ => false

/-- Declarative reading of the `Filter` shape of §3. -/
def filterShaped : Json → Bool
  | Json.obj fields =>
      fieldIs fields "materia" isStrListJson &&
        fieldIs fields "assunto" isStrListJson &&
        fieldIs fields "subAssunto" isStrListJson &&
        fieldIs fields "faculdade" isStrJson && fieldIs fields "ano" isStrJson
  | _ => false

/-- Declarative reading of the `Submission` shape of §3/§6: an object with
a `data` list of item-shaped objects and a `filter`-shaped object. -/
def submissionShaped : Json → Bool
  | Json.obj fields =>
      fieldIs fields "data"
          (fun j =>
            match j with
            | Json.arr xs => xs.all itemShaped
            | _ => false) &&
        fieldIs fields "filter" filterShaped
  | _ => false

/-- Modelled from the spec: the request-validation boundary in front of the
handler body (FastAPI/pydantic, not code under `src/`).  Per the spec, a
body that does not match the Submission shape fails with `ValidationError`,
HTTP-equivalent 400, carrying a detail string, before the handler body
runs — so no upload and no database access happen. -/
def handleRequest (env : Env) (ora : DbOracle) (uuid : String)
    (st : DbState) (body : Json) :
    DbState × List UploadCall × Except HErr SuccessResp :=
  match parseSubmission body with
  | Except.error d => (st, [], Except.error ⟨400, d⟩)
  | Except.ok sub => create_submission env ora uuid st sub

/-! ### Success-path characterisations

`specCalls` and `specProcess` spell out, by recursion over the items, the
upload calls and the processed list that the loop produces when no item
fails; `processItems_ok_eq` below proves that a successful run of the
embedded loop yields exactly these. -/

/-- The bytes an image item decodes to, when it decodes. -/
def decodedOf (env : Env) (it : DataItem) : Bytes :=
  match env.b64decode it.value with
  | Except.ok bs => bs
  | Except.error _ => []

/-- The upload calls a fully successful run performs: one per image item,
named from the running counter, in input order. -/
def specCalls (env : Env) (uuid : String) :
    List DataItem → Nat → List UploadCall
  | [], _ => []
  | it :: rest, c =>
    if isImage it then
      ⟨IMAGE_BUCKET, fname uuid c, decodedOf env it⟩ ::
        specCalls env uuid rest (c + 1)
    else
      specCalls env uuid rest c

/-- The processed list a fully successful run produces: image values
replaced by the resolved public URL, everything else passed through. -/
def specProcess (env : Env) (uuid : String) :
    List DataItem → Nat → List DataItem
  | [], _ => []
  | it :: rest, c =>
    if isImage it then
      ⟨it.id, env.getPublicUrl IMAGE_BUCKET (fname uuid c), it.type⟩ ::
        specProcess env uuid rest (c + 1)
    else
      ⟨it.id, it.value, it.type⟩ :: specProcess env uuid rest c

/-! ### Concrete fixtures used by the witnesses -/

/-- A store environment where decoding fails exactly on the value `"!!"`,
every upload succeeds, and URLs are resolved deterministically. -/
def okEnv : Env :=
  { b64decode := fun s =>
      if s == "!!" then Except.error "Invalid base64-encoded string"
      else Except.ok [104, 105]
  , upload := fun _ _ _ => UploadOutcome.returned true ""
  , getPublicUrl := fun b nm => "https://store.example/" ++ b ++ "/" ++ nm }

/-- A database where no step fails externally. -/
def okOra : DbOracle := ⟨none, none, none⟩

/-- A database where only `cursor.fetchone()` raises. -/
def fetchFailOra : DbOracle := ⟨none, none, some "boom"⟩

/-- An empty `questions` table. -/
def db0 : DbState := ⟨[], 1⟩

/-- A well-formed filter. -/
def flt0 : FilterModel := ⟨["math"], ["algebra"], [], "X", "2024"⟩

/-- A text item. -/
def itemText : DataItem := ⟨1, "aGVsbG8=", "text"⟩

/-- An image item whose value decodes. -/
def itemImg : DataItem := ⟨2, "iVBOR", "image"⟩

/-- An image item (capitalised type) whose value does not decode under
`okEnv`. -/
def itemBad : DataItem := ⟨3, "!!", "Image"⟩

/-- A text item followed by one image item. -/
def subMixed : Submission := ⟨[itemText, itemImg], flt0⟩

/-- A submission with an empty item list. -/
def subEmpty : Submission := ⟨[], flt0⟩

/-- A submission whose third item fails to decode, with one more image
item after it. -/
def subBad : Submission := ⟨[itemText, itemImg, itemBad, ⟨4, "x", "image"⟩], flt0⟩

/-- The URL `okEnv` resolves for the single image of `subMixed` under
question id `"u1"`. -/
def urlMixed : String := "https://store.example/vupi-questions-images/u1_1.png"

/-- The row `subMixed` persists under question id `"u1"` into `db0`. -/
def rowMixed : SqlRow :=
  ⟨1, "u1", SqlVal.textArray ["math"], SqlVal.textArray ["algebra"],
    SqlVal.textArray [], SqlVal.text "X", SqlVal.text "2024",
    [itemText, ⟨2, urlMixed, "image"⟩]⟩

/-- The single upload call `subMixed` performs under question id `"u1"`. -/
def callMixed : UploadCall := ⟨IMAGE_BUCKET, "u1_1.png", [104, 105]⟩

/-- A request body with a `data` list but no `filter` field. -/
def bodyBad : Json := Json.obj [("data", Json.arr [])]

/-- The processed list `subMixed` produces under question id `"u1"`. -/
def procMixed : List DataItem := [itemText, ⟨2, urlMixed, "image"⟩]

/-- The row `subEmpty` persists under question id `"u1"` into `db0`. -/
def rowEmpty : SqlRow :=
  ⟨1, "u1", SqlVal.textArray ["math"], SqlVal.textArray ["algebra"],
    SqlVal.textArray [], SqlVal.text "X", SqlVal.text "2024", []⟩

/-! ## Helper lemmas -/

lemma strsOf_map_str (xs : List String) :
    strsOf (xs.map PyVal.str) = some xs := by
  induction xs with
  | nil => rfl
  | cons x xs ih => simp [strsOf, strOf, ih]

lemma adaptParam_tuple_list (xs : List String) :
    adaptParam (PyVal.tuple [PyVal.list (xs.map PyVal.str)]) =
      some (SqlVal.textArray xs) := by
  simp [adaptParam, strsOf_map_str]

lemma adaptParam_tuple_str (s : String) :
    adaptParam (PyVal.tuple [PyVal.str s]) = some (SqlVal.text s) := rfl

lemma processItems_ok_eq (env : Env) (uuid : String) :
    ∀ (items : List DataItem) (c : Nat) (calls : List UploadCall)
      (out : List DataItem),
      processItems env uuid items c = (calls, Except.ok out) →
      calls = specCalls env uuid items c ∧
        out = specProcess env uuid items c := by
  intro items
  induction items with
  | nil =>
    intro c calls out h
    simp only [processItems, Prod.mk.injEq] at h
    obtain ⟨h1, h2⟩ := h
    injection h2 with h2
    simp [specCalls, specProcess, ← h1, ← h2]
  | cons it rest ih =>
    intro c calls out h
    simp only [processItems] at h
    split at h
    next himg =>
      split at h
      next e hdec => simp at h
      next bs hdec =>
        split at h
        next he hup => simp at h
        next u hup =>
          split at h
          next he hrest => simp at h
          next out2 hrest =>
            simp only [Prod.mk.injEq, Except.ok.injEq] at h
            obtain ⟨hc, ho⟩ := h
            have hr : processItems env uuid rest (c + 1) =
                ((processItems env uuid rest (c + 1)).1, Except.ok out2) := by
              rw [← hrest]
            obtain ⟨ic, io⟩ := ih (c + 1) _ out2 hr
            subst hc
            subst ho
            rw [ic, io]
            simp [specCalls, specProcess, himg, decodedOf, hdec]
    next himg =>
      split at h
      next he hrest => simp at h
      next out2 hrest =>
        simp only [Prod.mk.injEq, Except.ok.injEq] at h
        obtain ⟨hc, ho⟩ := h
        have hr : processItems env uuid rest c =
            ((processItems env uuid rest c).1, Except.ok out2) := by
          rw [← hrest]
        obtain ⟨ic, io⟩ := ih c _ out2 hr
        subst hc
        subst ho
        rw [ic, io]
        simp [specCalls, specProcess, himg]

lemma specProcess_length (env : Env) (uuid : String) :
    ∀ (items : List DataItem) (c : Nat),
      (specProcess env uuid items c).length = items.length := by
  intro items
  induction items with
  | nil => intro c; rfl
  | cons it rest ih =>
    intro c
    simp only [specProcess]
    split
    · simp [ih]
    · simp [ih]

lemma specProcess_preserves (env : Env) (uuid : String) :
    ∀ (items : List DataItem) (c : Nat),
      List.Forall₂
        (fun it o => o.id = it.id ∧ o.type = it.type ∧
          (isImage it = false → o.value = it.value))
        items (specProcess env uuid items c) := by
  intro items
  induction items with
  | nil => intro c; exact List.Forall₂.nil
  | cons it rest ih =>
    intro c
    simp only [specProcess]
    split
    next himg =>
      exact List.Forall₂.cons
        ⟨rfl, rfl, fun hno => absurd himg (by simp [hno])⟩ (ih (c + 1))
    next himg =>
      exact List.Forall₂.cons ⟨rfl, rfl, fun _ => rfl⟩ (ih c)

lemma specProcess_no_image (env : Env) (uuid : String) :
    ∀ (items : List DataItem) (c : Nat),
      items.countP isImage = 0 → specProcess env uuid items c = items := by
  intro items
  induction items with
  | nil => intro c _; rfl
  | cons it rest ih =>
    intro c h0
    simp only [List.countP_cons] at h0
    cases himg : isImage it with
    | true => rw [himg] at h0; simp at h0
    | false =>
      rw [himg] at h0
      simp at h0
      have hrest : rest.countP isImage = 0 := by
        rw [List.countP_eq_zero]
        intro a ha
        simp [h0 a ha]
      rcases it with ⟨i, v, t⟩
      simp [specProcess, himg, ih c hrest]

lemma specCalls_names (env : Env) (uuid : String) :
    ∀ (items : List DataItem) (c : Nat),
      (specCalls env uuid items c).map UploadCall.name =
        (List.range' c (items.countP isImage)).map (fname uuid) := by
  intro items
  induction items with
  | nil => intro c; rfl
  | cons it rest ih =>
    intro c
    simp only [specCalls, List.countP_cons]
    split
    next himg =>
      simp only [himg, if_true, List.range'_succ, List.map_cons, List.map]
      exact congrArg (fname uuid c :: ·) (ih (c + 1))
    next himg =>
      simp only [Bool.not_eq_true] at himg
      simp only [himg, if_false, Nat.add_zero]
      exact ih c

lemma specCalls_length (env : Env) (uuid : String) :
    ∀ (items : List DataItem) (c : Nat),
      (specCalls env uuid items c).length = items.countP isImage := by
  intro items
  induction items with
  | nil => intro c; rfl
  | cons it rest ih =>
    intro c
    simp only [specCalls, List.countP_cons]
    split
    next himg => simp [himg, ih]
    next himg =>
      simp only [Bool.not_eq_true] at himg
      simp [himg, ih]

lemma specCalls_bucket (env : Env) (uuid : String) :
    ∀ (items : List DataItem) (c : Nat) (cl : UploadCall),
      cl ∈ specCalls env uuid items c → cl.bucket = IMAGE_BUCKET := by
  intro items
  induction items with
  | nil => intro c cl h; simp [specCalls] at h
  | cons it rest ih =>
    intro c cl h
    simp only [specCalls] at h
    split at h
    · rcases List.mem_cons.mp h with hh | ht
      · subst hh; rfl
      · exact ih (c + 1) cl ht
    · exact ih c cl h

lemma specProcess_image_urls (env : Env) (uuid : String) :
    ∀ (items : List DataItem) (c : Nat),
      List.Forall₂
        (fun it o => o.id = it.id ∧ o.type = it.type ∧
          (isImage it = true → ∃ n,
            o.value = env.getPublicUrl IMAGE_BUCKET (fname uuid n) ∧
              fname uuid n ∈ (specCalls env uuid items c).map UploadCall.name))
        items (specProcess env uuid items c) := by
  intro items
  induction items with
  | nil => intro c; exact List.Forall₂.nil
  | cons it rest ih =>
    intro c
    simp only [specProcess, specCalls]
    split
    next himg =>
      refine List.Forall₂.cons ⟨rfl, rfl, fun _ => ⟨c, rfl, ?_⟩⟩ ?_
      · simp
      · refine (ih (c + 1)).imp ?_
        rintro a b ⟨h1, h2, h3⟩
        refine ⟨h1, h2, fun himg2 => ?_⟩
        obtain ⟨n, hv, hm⟩ := h3 himg2
        exact ⟨n, hv, by simp [hm]⟩
    next himg =>
      exact List.Forall₂.cons ⟨rfl, rfl, fun hx => absurd hx himg⟩ (ih c)

lemma uploadStep_error (env : Env) (nm : String) (bs : Bytes) (he : HErr)
    (h : uploadStep env nm bs = Except.error he) :
    he.status = 500 ∧ ∃ s, he.detail = "Error uploading image: " ++ s := by
  unfold uploadStep at h
  split at h
  · injection h with h
    subst h
    exact ⟨rfl, _, rfl⟩
  · split at h
    · simp at h
    · injection h with h
      subst h
      exact ⟨rfl, _, rfl⟩

/-- Claim C9: every failure the per-item pipeline can produce is an
`HTTPException` from the error taxonomy, carrying a human-readable detail
message naming the underlying reason: a 400 whose detail extends
`Error decoding image data: `, or a 500 whose detail extends
`Error uploading image: ` (covering both an upload call that raises and a
store result rejected by the truthiness check).  Public-URL resolution is
infallible per the collaborator interface, so no pipeline failure escapes
without a detail. -/
theorem pipeline_errors_have_details (env : Env) (uuid : String) :
    ∀ (items : List DataItem) (c : Nat) (calls : List UploadCall) (he : HErr),
      processItems env uuid items c = (calls, Except.error he) →
      (he.status = 400 ∧
          ∃ e, he.detail = "Error decoding image data: " ++ e) ∨
        (he.status = 500 ∧
          ∃ s, he.detail = "Error uploading image: " ++ s) := by
  intro items
  induction items with
  | nil =>
    intro c calls he h
    simp [processItems] at h
  | cons it rest ih =>
    intro c calls he h
    simp only [processItems] at h
    split at h
    next himg =>
      split at h
      next e hdec =>
        simp only [Prod.mk.injEq] at h
        obtain ⟨_, h2⟩ := h
        injection h2 with h2
        subst h2
        exact Or.inl ⟨rfl, e, rfl⟩
      next bs hdec =>
        split at h
        next he2 hup =>
          simp only [Prod.mk.injEq] at h
          obtain ⟨_, h2⟩ := h
          injection h2 with h2
          subst h2
          exact Or.inr (uploadStep_error env (fname uuid c) bs _ hup)
        next u hup =>
          split at h
          next he2 hrest =>
            simp only [Prod.mk.injEq] at h
            obtain ⟨_, h2⟩ := h
            injection h2 with h2
            subst h2
            exact ih (c + 1) _ he2 (by rw [← hrest])
          next out2 hrest => simp at h
    next himg =>
      split at h
      next he2 hrest =>
        simp only [Prod.mk.injEq] at h
        obtain ⟨_, h2⟩ := h
        injection h2 with h2
        subst h2
        exact ih c _ he2 (by rw [← hrest])
      next out2 hrest => simp at h

lemma processItems_append_error (env : Env) (uuid : String) :
    ∀ (pre : List DataItem) (c : Nat) (calls : List UploadCall)
      (out : List DataItem) (rest : List DataItem) (cs2 : List UploadCall)
      (he : HErr),
      processItems env uuid pre c = (calls, Except.ok out) →
      processItems env uuid rest (c + pre.countP isImage) =
        (cs2, Except.error he) →
      processItems env uuid (pre ++ rest) c =
        (calls ++ cs2, Except.error he) := by
  intro pre
  induction pre with
  | nil =>
    intro c calls out rest cs2 he h1 h2
    simp only [processItems, Prod.mk.injEq] at h1
    obtain ⟨hc, _⟩ := h1
    subst hc
    simpa using h2
  | cons it pre ih =>
    intro c calls out rest cs2 he h1 h2
    simp only [processItems] at h1
    split at h1
    next himg =>
      split at h1
      next e hdec => simp at h1
      next bs hdec =>
        split at h1
        next he2 hup => simp at h1
        next u hup =>
          split at h1
          next he2 hr => simp at h1
          next out2 hr =>
            simp only [Prod.mk.injEq, Except.ok.injEq] at h1
            obtain ⟨hc, _⟩ := h1
            have hPre : processItems env uuid pre (c + 1) =
                ((processItems env uuid pre (c + 1)).1, Except.ok out2) := by
              rw [← hr]
            have hcount : c + (it :: pre).countP isImage =
                (c + 1) + pre.countP isImage := by
              simp only [List.countP_cons, himg, if_true]
              omega
            rw [hcount] at h2
            have hih := ih (c + 1) _ out2 rest cs2 he hPre h2
            subst hc
            simp [processItems, List.cons_append, himg, hdec, hup, hih]
    next himg =>
      split at h1
      next he2 hr => simp at h1
      next out2 hr =>
        simp only [Prod.mk.injEq, Except.ok.injEq] at h1
        obtain ⟨hc, _⟩ := h1
        have hPre : processItems env uuid pre c =
            ((processItems env uuid pre c).1, Except.ok out2) := by
          rw [← hr]
        have hcount : c + (it :: pre).countP isImage =
            c + pre.countP isImage := by
          simp [List.countP_cons, himg]
        rw [hcount] at h2
        have hih := ih c _ out2 rest cs2 he hPre h2
        subst hc
        simp [processItems, List.cons_append, himg, hih]

lemma create_submission_error_processing (env : Env) (ora : DbOracle)
    (uuid : String) (st : DbState) (sub : Submission)
    (calls : List UploadCall) (he : HErr)
    (h : processItems env uuid sub.data 1 = (calls, Except.error he)) :
    create_submission env ora uuid st sub = (st, calls, Except.error he) := by
  simp [create_submission, h]

lemma executeInsert_ok (ora : DbOracle) (st : DbState) (r : RecordDict)
    (row : SqlRow) (h : executeInsert ora st r = Except.ok row) :
    ora.executeFail = none ∧
      row.id = st.nextId ∧ row.question_id = r.question_id ∧
      row.data = r.data ∧
      adaptParam r.materia = some row.materia ∧
      adaptParam r.assunto = some row.assunto ∧
      adaptParam r.sub_assunto = some row.sub_assunto ∧
      adaptParam r.faculdade = some row.faculdade ∧
      adaptParam r.ano = some row.ano ∧
      (∀ rr ∈ st.rows, rr.question_id ≠ r.question_id) := by
  unfold executeInsert at h
  split at h
  next e hex => simp at h
  next hex =>
    split at h
    next m a sa f an hm ha hsa hf han =>
      split at h
      next hdup => simp at h
      next hdup =>
        injection h with h
        subst h
        refine ⟨hex, rfl, rfl, rfl, hm, ha, hsa, hf, han, ?_⟩
        intro rr hrr hqe
        exact hdup (List.any_eq_true.mpr ⟨rr, hrr, by simp [hqe]⟩)
    next hnone => simp at h

lemma persistRecord_ok (ora : DbOracle) (st : DbState) (r : RecordDict)
    (st2 : DbState) (i : Nat)
    (h : persistRecord ora st r = (st2, Except.ok i)) :
    ∃ row, executeInsert ora st r = Except.ok row ∧
      ora.commitFail = none ∧ ora.fetchFail = none ∧
      st2 = ⟨st.rows ++ [row], st.nextId + 1⟩ ∧ i = row.id := by
  unfold persistRecord at h
  split at h
  next e hex => simp at h
  next row hex =>
    split at h
    next e hcommit => simp at h
    next hcommit =>
      split at h
      next e hfetch => simp at h
      next hfetch =>
        simp only [Prod.mk.injEq, Except.ok.injEq] at h
        obtain ⟨h1, h2⟩ := h
        exact ⟨row, hex, hcommit, hfetch, h1.symm, h2.symm⟩

lemma create_submission_ok (env : Env) (ora : DbOracle) (uuid : String)
    (st : DbState) (sub : Submission) (st2 : DbState)
    (calls : List UploadCall) (resp : SuccessResp)
    (h : create_submission env ora uuid st sub =
      (st2, calls, Except.ok resp)) :
    ∃ processed row,
      processItems env uuid sub.data 1 = (calls, Except.ok processed) ∧
      executeInsert ora st (assembleRecord uuid sub.filter processed) =
        Except.ok row ∧
      ora.commitFail = none ∧ ora.fetchFail = none ∧
      st2 = ⟨st.rows ++ [row], st.nextId + 1⟩ ∧
      resp = ⟨"Submission created successfully", row.id⟩ := by
  unfold create_submission at h
  split at h
  next calls2 he hpr => simp at h
  next calls2 processed hpr =>
    split at h
    next stx he hpe => simp at h
    next stx i hpe =>
      simp only [Prod.mk.injEq, Except.ok.injEq] at h
      obtain ⟨h1, h2, h3⟩ := h
      obtain ⟨row, hex, hcm, hft, hst, hid⟩ :=
        persistRecord_ok ora st (assembleRecord uuid sub.filter processed)
          stx i hpe
      subst h1
      subst h2
      refine ⟨processed, row, hpr, hex, hcm, hft, hst, ?_⟩
      rw [← h3, hid]

lemma parseField_ok (fields : List (String × Json)) (k : String) (v : Json)
    (h : parseField fields k = Except.ok v) : lookupField fields k = some v := by
  unfold parseField at h
  split at h
  next v2 hlk =>
    injection h with h
    subst h
    exact hlk
  next hlk => simp at h

lemma asInt_ok (j : Json) (i : Int) (h : asInt j = Except.ok i) :
    isIntJson j = true := by
  cases j <;> simp_all [asInt, isIntJson]

lemma asStr_ok (j : Json) (s : String) (h : asStr j = Except.ok s) :
    isStrJson j = true := by
  cases j <;> simp_all [asStr, isStrJson]

lemma parseStrs_ok : ∀ (xs : List Json) (ss : List String),
    parseStrs xs = Except.ok ss → xs.all isStrJson = true := by
  intro xs
  induction xs with
  | nil => intro ss _; rfl
  | cons j rest ih =>
    intro ss h
    simp only [parseStrs] at h
    split at h
    next s ss2 hs hrest =>
      simp only [List.all_cons, Bool.and_eq_true]
      exact ⟨asStr_ok j s hs, ih ss2 hrest⟩
    next e hs _ => simp at h
    next e _ hs hrest => simp at h

lemma asStrs_ok (j : Json) (ss : List String)
    (h : asStrs j = Except.ok ss) : isStrListJson j = true := by
  cases j <;> simp_all [asStrs, isStrListJson]
  case arr xs =>
    exact fun x hx => List.all_eq_true.mp (parseStrs_ok xs ss h) x hx

lemma parseDataItem_ok (j : Json) (it : DataItem)
    (h : parseDataItem j = Except.ok it) : itemShaped j = true := by
  cases j with
  | obj fields =>
    simp only [parseDataItem] at h
    split at h
    next jid jval jty hid hval hty =>
      split at h
      next i v t hi hv ht =>
        simp [itemShaped, fieldIs, parseField_ok _ _ _ hid,
          parseField_ok _ _ _ hval, parseField_ok _ _ _ hty,
          asInt_ok _ _ hi, asStr_ok _ _ hv, asStr_ok _ _ ht]
      next e hx _ _ => simp at h
      next e _ hx _ => simp at h
      next e _ _ hx => simp at h
    next e hx _ _ => simp at h
    next e _ hx _ => simp at h
    next e _ _ hx => simp at h
  | null => simp [parseDataItem] at h
  | bool b => simp [parseDataItem] at h
  | num n => simp [parseDataItem] at h
  | str s => simp [parseDataItem] at h
  | arr xs => simp [parseDataItem] at h

lemma parseItems_ok : ∀ (xs : List Json) (its : List DataItem),
    parseItems xs = Except.ok its → xs.all itemShaped = true := by
  intro xs
  induction xs with
  | nil => intro its _; rfl
  | cons j rest ih =>
    intro its h
    simp only [parseItems] at h
    split at h
    next it its2 hit hrest =>
      simp only [List.all_cons, Bool.and_eq_true]
      exact ⟨parseDataItem_ok j it hit, ih its2 hrest⟩
    next e hit _ => simp at h
    next e _ hit hrest => simp at h

lemma parseFilter_ok (j : Json) (flt : FilterModel)
    (h : parseFilter j = Except.ok flt) : filterShaped j = true := by
  cases j with
  | obj fields =>
    simp only [parseFilter] at h
    split at h
    next jm ja js jf jy hm ha hs hf hy =>
      split at h
      next m a s f y hm2 ha2 hs2 hf2 hy2 =>
        simp [filterShaped, fieldIs, parseField_ok _ _ _ hm,
          parseField_ok _ _ _ ha, parseField_ok _ _ _ hs,
          parseField_ok _ _ _ hf, parseField_ok _ _ _ hy,
          asStrs_ok _ _ hm2, asStrs_ok _ _ ha2, asStrs_ok _ _ hs2,
          asStr_ok _ _ hf2, asStr_ok _ _ hy2]
      next e hx _ _ _ _ => simp at h
      next e _ hx _ _ _ => simp at h
      next e _ _ hx _ _ => simp at h
      next e _ _ _ hx _ => simp at h
      next e _ _ _ _ hx => simp at h
    next e hx _ _ _ _ => simp at h
    next e _ hx _ _ _ => simp at h
    next e _ _ hx _ _ => simp at h
    next e _ _ _ hx _ => simp at h
    next e _ _ _ _ hx => simp at h
  | null => simp [parseFilter] at h
  | bool b => simp [parseFilter] at h
  | num n => simp [parseFilter] at h
  | str s => simp [parseFilter] at h
  | arr xs => simp [parseFilter] at h

lemma parseSubmission_ok (body : Json) (sub : Submission)
    (h : parseSubmission body = Except.ok sub) :
    submissionShaped body = true := by
  cases body with
  | obj fields =>
    simp only [parseSubmission] at h
    split at h
    next jd jf hd hf =>
      split at h
      next xs =>
        split at h
        next items flt hits hflt =>
          simp [submissionShaped, fieldIs, parseField_ok _ _ _ hd,
            parseField_ok _ _ _ hf, parseItems_ok _ _ hits,
            parseFilter_ok _ _ hflt]
        next e hx _ => simp at h
        next e _ hx hflt => simp at h
      next hne => simp at h
    next e hx _ => simp at h
    next e _ hx => simp at h
  | null => simp [parseSubmission] at h
  | bool b => simp [parseSubmission] at h
  | num n => simp [parseSubmission] at h
  | str s => simp [parseSubmission] at h
  | arr xs => simp [parseSubmission] at h

lemma executeInsert_of_fresh (ora : DbOracle) (st : DbState) (uuid : String)
    (flt : FilterModel) (processed : List DataItem)
    (hex : ora.executeFail = none)
    (hfresh : ∀ rr ∈ st.rows, rr.question_id ≠ uuid) :
    executeInsert ora st (assembleRecord uuid flt processed) =
      Except.ok ⟨st.nextId, uuid, SqlVal.textArray flt.materia,
        SqlVal.textArray flt.assunto, SqlVal.textArray flt.subAssunto,
        SqlVal.text flt.faculdade, SqlVal.text flt.ano, processed⟩ := by
  have hany : st.rows.any (fun row => row.question_id == uuid) = false := by
    rw [List.any_eq_false]
    intro x hx
    simp [hfresh x hx]
  simp [executeInsert, hex, assembleRecord, adaptParam_tuple_list,
    adaptParam_tuple_str, hany]

/-! ## Claim theorems -/

/-- Claim C1: for every submission that is successfully persisted, the
stored row's `materia`, `assunto` and `sub_assunto` columns hold exactly
the Filter's string sequences, and its `faculdade` and `ano` columns hold
exactly the Filter's strings, copied verbatim.  (The `record` dict wraps
each field in a one-element tuple — lines 116-120 end in commas — but
psycopg2 renders a one-element tuple as a parenthesised SQL expression,
so the stored column value is the unwrapped original.) -/
theorem persisted_filter_fields_verbatim (env : Env) (ora : DbOracle)
    (uuid : String) (st : DbState) (sub : Submission) (st2 : DbState)
    (calls : List UploadCall) (resp : SuccessResp)
    (h : create_submission env ora uuid st sub =
      (st2, calls, Except.ok resp)) :
    ∃ row, st2.rows = st.rows ++ [row] ∧
      row.materia = SqlVal.textArray sub.filter.materia ∧
      row.assunto = SqlVal.textArray sub.filter.assunto ∧
      row.sub_assunto = SqlVal.textArray sub.filter.subAssunto ∧
      row.faculdade = SqlVal.text sub.filter.faculdade ∧
      row.ano = SqlVal.text sub.filter.ano := by
  obtain ⟨processed, row, hpr, hex, hcm, hft, hst, hresp⟩ :=
    create_submission_ok env ora uuid st sub st2 calls resp h
  obtain ⟨_, _, _, _, hm, ha, hsa, hf, han, _⟩ :=
    executeInsert_ok ora st _ row hex
  refine ⟨row, by rw [hst], ?_, ?_, ?_, ?_, ?_⟩
  · simp [assembleRecord, adaptParam_tuple_list] at hm
    exact hm.symm
  · simp [assembleRecord, adaptParam_tuple_list] at ha
    exact ha.symm
  · simp [assembleRecord, adaptParam_tuple_list] at hsa
    exact hsa.symm
  · simp [assembleRecord, adaptParam_tuple_str] at hf
    exact hf.symm
  · simp [assembleRecord, adaptParam_tuple_str] at han
    exact han.symm

/-- Witness for C1: the concrete mixed submission persists rows whose
filter columns are the filter values themselves. -/
theorem persisted_filter_fields_verbatim_witness :
    ∃ row, (DbState.mk [rowMixed] 2).rows = db0.rows ++ [row] ∧
      row.materia = SqlVal.textArray subMixed.filter.materia ∧
      row.assunto = SqlVal.textArray subMixed.filter.assunto ∧
      row.sub_assunto = SqlVal.textArray subMixed.filter.subAssunto ∧
      row.faculdade = SqlVal.text subMixed.filter.faculdade ∧
      row.ano = SqlVal.text subMixed.filter.ano :=
  persisted_filter_fields_verbatim okEnv okOra "u1" db0 subMixed
    ⟨[rowMixed], 2⟩ [callMixed] ⟨"Submission created successfully", 1⟩
    (by rfl)

/-- Claim C2: if every item before an image item processes successfully
and that image item's value fails to decode, the handler raises the 400
decode `HTTPException`, the table is unchanged (no row inserted), and the
upload calls performed are exactly those of the items before the failing
one — none for the failing item or any later item. -/
theorem decode_failure_aborts_submission (env : Env) (ora : DbOracle)
    (uuid : String) (st : DbState) (flt : FilterModel)
    (pre post : List DataItem) (bad : DataItem)
    (calls : List UploadCall) (out : List DataItem) (e : String)
    (hpre : processItems env uuid pre 1 = (calls, Except.ok out))
    (himg : isImage bad = true)
    (hdec : env.b64decode bad.value = Except.error e) :
    create_submission env ora uuid st ⟨pre ++ bad :: post, flt⟩ =
      (st, calls, Except.error ⟨400, "Error decoding image data: " ++ e⟩) := by
  have hbad : processItems env uuid (bad :: post) (1 + pre.countP isImage) =
      ([], Except.error ⟨400, "Error decoding image data: " ++ e⟩) := by
    simp [processItems, himg, hdec]
  have happ := processItems_append_error env uuid pre 1 calls out
    (bad :: post) [] _ hpre hbad
  have hcs := create_submission_error_processing env ora uuid st
    ⟨pre ++ bad :: post, flt⟩ (calls ++ []) _ happ
  simpa using hcs

/-- Witness for C2: in the concrete four-item submission whose third item
fails to decode, the one upload of the second item happens, nothing is
uploaded for the third or fourth item, and no row is inserted. -/
theorem decode_failure_aborts_submission_witness :
    create_submission okEnv okOra "u1" db0 subBad =
      (db0, [callMixed],
        Except.error
          ⟨400, "Error decoding image data: Invalid base64-encoded string"⟩) :=
  decode_failure_aborts_submission okEnv okOra "u1" db0 flt0
    [itemText, itemImg] [⟨4, "x", "image"⟩] itemBad [callMixed]
    procMixed "Invalid base64-encoded string" (by rfl) (by rfl) (by rfl)

/-- Claim C3: a request body that does not match the Submission shape is
rejected at the validation boundary with a 400-equivalent response
carrying a detail string, with no upload call and no database change. -/
theorem invalid_shape_rejected (env : Env) (ora : DbOracle) (uuid : String)
    (st : DbState) (body : Json) (h : submissionShaped body = false) :
    ∃ d, handleRequest env ora uuid st body =
      (st, [], Except.error ⟨400, d⟩) := by
  cases hp : parseSubmission body with
  | error d => exact ⟨d, by simp [handleRequest, hp]⟩
  | ok sub => exact absurd (parseSubmission_ok body sub hp) (by simp [h])

/-- Witness for C3: the body missing its `filter` field is rejected with
a 400 and a detail string, leaving the table untouched. -/
theorem invalid_shape_rejected_witness :
    ∃ d, handleRequest okEnv okOra "u1" db0 bodyBad =
      (db0, [], Except.error ⟨400, d⟩) :=
  invalid_shape_rejected okEnv okOra "u1" db0 bodyBad (by rfl)

/-- Claim C4: a successful processing run of a submission with k image
items performs exactly k upload calls, named `{uuid}_1.png` through
`{uuid}_k.png` in input order (the counter is 1-based and advances only on
image items), all into the configured bucket. -/
theorem upload_names_sequential (env : Env) (uuid : String)
    (items : List DataItem) (calls : List UploadCall) (out : List DataItem)
    (h : processItems env uuid items 1 = (calls, Except.ok out)) :
    calls.length = items.countP isImage ∧
      calls.map UploadCall.name =
        (List.range' 1 (items.countP isImage)).map (fname uuid) ∧
      ∀ cl ∈ calls, cl.bucket = IMAGE_BUCKET := by
  obtain ⟨hc, _⟩ := processItems_ok_eq env uuid items 1 calls out h
  subst hc
  exact ⟨specCalls_length env uuid items 1, specCalls_names env uuid items 1,
    fun cl hcl => specCalls_bucket env uuid items 1 cl hcl⟩

/-- Witness for C4: the mixed submission (one text, one image) makes
exactly one upload call named `u1_1.png`. -/
theorem upload_names_sequential_witness :
    ([callMixed] : List UploadCall).length =
        ([itemText, itemImg] : List DataItem).countP isImage ∧
      ([callMixed] : List UploadCall).map UploadCall.name =
        (List.range' 1
          (([itemText, itemImg] : List DataItem).countP isImage)).map
            (fname "u1") ∧
      ∀ cl ∈ ([callMixed] : List UploadCall), cl.bucket = IMAGE_BUCKET :=
  upload_names_sequential okEnv "u1" [itemText, itemImg] [callMixed]
    procMixed (by rfl)

/-- Claim C5 (amended): for a submission that reaches the persistence
step, a failure at the insert execute or at the commit rolls the
transaction back — the table is unchanged and the handler fails with the
500 insert `HTTPException`.  A failure at the surrogate-id retrieval
(`fetchone`), however, happens after `db.commit()`: the handler still
fails with the 500, but the committed row remains persisted.  On success
the store-assigned surrogate id is returned. -/
theorem persistence_failure_rollback_cases (env : Env) (ora : DbOracle)
    (uuid : String) (st : DbState) (sub : Submission)
    (calls : List UploadCall) (processed : List DataItem)
    (hp : processItems env uuid sub.data 1 = (calls, Except.ok processed)) :
    (∀ e, executeInsert ora st (assembleRecord uuid sub.filter processed) =
        Except.error e →
      create_submission env ora uuid st sub =
        (st, calls, Except.error ⟨500, "Error inserting record: " ++ e⟩)) ∧
    (∀ row e,
      executeInsert ora st (assembleRecord uuid sub.filter processed) =
        Except.ok row → ora.commitFail = some e →
      create_submission env ora uuid st sub =
        (st, calls, Except.error ⟨500, "Error inserting record: " ++ e⟩)) ∧
    (∀ row e,
      executeInsert ora st (assembleRecord uuid sub.filter processed) =
        Except.ok row → ora.commitFail = none → ora.fetchFail = some e →
      create_submission env ora uuid st sub =
        (⟨st.rows ++ [row], st.nextId + 1⟩, calls,
          Except.error ⟨500, "Error inserting record: " ++ e⟩)) ∧
    (∀ row,
      executeInsert ora st (assembleRecord uuid sub.filter processed) =
        Except.ok row → ora.commitFail = none → ora.fetchFail = none →
      create_submission env ora uuid st sub =
        (⟨st.rows ++ [row], st.nextId + 1⟩, calls,
          Except.ok ⟨"Submission created successfully", row.id⟩)) := by
  refine ⟨?_, ?_, ?_, ?_⟩
  · intro e hx
    simp [create_submission, hp, persistRecord, hx]
  · intro row e hx hcm
    simp [create_submission, hp, persistRecord, hx, hcm]
  · intro row e hx hcm hft
    simp [create_submission, hp, persistRecord, hx, hcm, hft]
  · intro row hx hcm hft
    simp [create_submission, hp, persistRecord, hx, hcm, hft]

/-- Witness for the amended C5: with only `fetchone` failing, the mixed
submission yields the 500 insert error while its row stays in the table. -/
theorem persistence_failure_rollback_cases_witness :
    create_submission okEnv fetchFailOra "u1" db0 subMixed =
      (⟨db0.rows ++ [rowMixed], db0.nextId + 1⟩, [callMixed],
        Except.error ⟨500, "Error inserting record: boom"⟩) :=
  (persistence_failure_rollback_cases okEnv fetchFailOra "u1" db0 subMixed
    [callMixed] procMixed (by rfl)).2.2.1 rowMixed "boom" (by rfl) rfl rfl

/-- Counterexample to C5 as stated: at this concrete input the
surrogate-id retrieval fails, the handler returns the 500 persistence
error, and yet a row has been persisted (the commit preceded the
failure), contradicting the claimed rollback-to-no-row. -/
theorem fetch_failure_persists_row :
    (create_submission okEnv fetchFailOra "u1" db0 subMixed).2.2 =
        Except.error ⟨500, "Error inserting record: boom"⟩ ∧
      (create_submission okEnv fetchFailOra "u1" db0 subMixed).1.rows =
        [rowMixed] :=
  ⟨by rfl, by rfl⟩

/-- Claim C6: in every persisted record, each image-typed processed item
keeps its input `id` and `type`, and its `value` is the public URL the
store resolves for one of the object names that were actually uploaded —
never the raw base64 input. -/
theorem image_values_are_public_urls (env : Env) (ora : DbOracle)
    (uuid : String) (st : DbState) (sub : Submission) (st2 : DbState)
    (calls : List UploadCall) (resp : SuccessResp)
    (h : create_submission env ora uuid st sub =
      (st2, calls, Except.ok resp)) :
    ∃ row, st2.rows = st.rows ++ [row] ∧
      List.Forall₂
        (fun it o => o.id = it.id ∧ o.type = it.type ∧
          (isImage it = true → ∃ n,
            o.value = env.getPublicUrl IMAGE_BUCKET (fname uuid n) ∧
              fname uuid n ∈ calls.map UploadCall.name))
        sub.data row.data := by
  obtain ⟨processed, row, hpr, hex, _, _, hst, _⟩ :=
    create_submission_ok env ora uuid st sub st2 calls resp h
  obtain ⟨_, _, _, hdata, _⟩ := executeInsert_ok ora st _ row hex
  obtain ⟨hcalls, hout⟩ :=
    processItems_ok_eq env uuid sub.data 1 calls processed hpr
  refine ⟨row, by rw [hst], ?_⟩
  have hdata2 : row.data = processed := by
    simpa [assembleRecord] using hdata
  rw [hdata2, hout, hcalls]
  exact specProcess_image_urls env uuid sub.data 1

/-- Witness for C6 at the concrete mixed submission. -/
theorem image_values_are_public_urls_witness :
    ∃ row, (DbState.mk [rowMixed] 2).rows = db0.rows ++ [row] ∧
      List.Forall₂
        (fun it o => o.id = it.id ∧ o.type = it.type ∧
          (isImage it = true → ∃ n,
            o.value = okEnv.getPublicUrl IMAGE_BUCKET (fname "u1" n) ∧
              fname "u1" n ∈
                ([callMixed] : List UploadCall).map UploadCall.name))
        subMixed.data row.data :=
  image_values_are_public_urls okEnv okOra "u1" db0 subMixed
    ⟨[rowMixed], 2⟩ [callMixed] ⟨"Submission created successfully", 1⟩
    (by rfl)

/-- Claim C7: the persisted `data` sequence has the same length as the
input item list, preserves order, preserves each item's `id` and `type`,
passes every non-image item's `value` through unchanged, and for a
submission with zero image items equals the input items verbatim. -/
theorem data_preserves_items (env : Env) (ora : DbOracle)
    (uuid : String) (st : DbState) (sub : Submission) (st2 : DbState)
    (calls : List UploadCall) (resp : SuccessResp)
    (h : create_submission env ora uuid st sub =
      (st2, calls, Except.ok resp)) :
    ∃ row, st2.rows = st.rows ++ [row] ∧
      row.data.length = sub.data.length ∧
      List.Forall₂
        (fun it o => o.id = it.id ∧ o.type = it.type ∧
          (isImage it = false → o.value = it.value))
        sub.data row.data ∧
      (sub.data.countP isImage = 0 → row.data = sub.data) := by
  obtain ⟨processed, row, hpr, hex, _, _, hst, _⟩ :=
    create_submission_ok env ora uuid st sub st2 calls resp h
  obtain ⟨_, _, _, hdata, _⟩ := executeInsert_ok ora st _ row hex
  obtain ⟨_, hout⟩ :=
    processItems_ok_eq env uuid sub.data 1 calls processed hpr
  have hdata2 : row.data = processed := by
    simpa [assembleRecord] using hdata
  refine ⟨row, by rw [hst], ?_, ?_, ?_⟩
  · rw [hdata2, hout]
    exact specProcess_length env uuid sub.data 1
  · rw [hdata2, hout]
    exact specProcess_preserves env uuid sub.data 1
  · intro h0
    rw [hdata2, hout]
    exact specProcess_no_image env uuid sub.data 1 h0

/-- Witness for C7 at the concrete mixed submission. -/
theorem data_preserves_items_witness :
    ∃ row, (DbState.mk [rowMixed] 2).rows = db0.rows ++ [row] ∧
      row.data.length = subMixed.data.length ∧
      List.Forall₂
        (fun it o => o.id = it.id ∧ o.type = it.type ∧
          (isImage it = false → o.value = it.value))
        subMixed.data row.data ∧
      (subMixed.data.countP isImage = 0 → row.data = subMixed.data) :=
  data_preserves_items okEnv okOra "u1" db0 subMixed ⟨[rowMixed], 2⟩
    [callMixed] ⟨"Submission created successfully", 1⟩ (by rfl)

/-- Claim C8: every successful request returns the fixed success message
together with the surrogate id of exactly one newly appended row; that
row's `question_id` is the UUID generated for this submission, which the
unique constraint guarantees differs from every previously inserted row's
`question_id`, so a table with pairwise-distinct question ids stays
pairwise distinct. -/
theorem success_response_unique_row (env : Env) (ora : DbOracle)
    (uuid : String) (st : DbState) (sub : Submission) (st2 : DbState)
    (calls : List UploadCall) (resp : SuccessResp)
    (h : create_submission env ora uuid st sub =
      (st2, calls, Except.ok resp)) :
    resp.message = "Submission created successfully" ∧
      ∃ row, st2.rows = st.rows ++ [row] ∧
        resp.submission_id = row.id ∧ row.question_id = uuid ∧
        (∀ rr ∈ st.rows, rr.question_id ≠ uuid) ∧
        ((st.rows.map SqlRow.question_id).Nodup →
          (st2.rows.map SqlRow.question_id).Nodup) := by
  obtain ⟨processed, row, hpr, hex, _, _, hst, hresp⟩ :=
    create_submission_ok env ora uuid st sub st2 calls resp h
  obtain ⟨_, _, hqid, _, _, _, _, _, _, hfresh⟩ :=
    executeInsert_ok ora st _ row hex
  have hq : row.question_id = uuid := by
    simpa [assembleRecord] using hqid
  have hfr : ∀ rr ∈ st.rows, rr.question_id ≠ uuid := by
    intro rr hrr
    have := hfresh rr hrr
    simpa [assembleRecord] using this
  refine ⟨by rw [hresp], row, by rw [hst], by rw [hresp], hq, hfr, ?_⟩
  intro hnd
  rw [hst]
  simp only [List.map_append, List.map_cons, List.map_nil]
  rw [List.nodup_append]
  refine ⟨hnd, List.nodup_singleton _, ?_⟩
  intro a ha hb
  simp only [List.mem_singleton] at hb
  obtain ⟨rr, hrr, hrra⟩ := List.mem_map.mp ha
  exact hfr rr hrr (by rw [hrra, hb, hq])

/-- Witness for C8 at the concrete mixed submission. -/
theorem success_response_unique_row_witness :
    (SuccessResp.mk "Submission created successfully" 1).message =
        "Submission created successfully" ∧
      ∃ row, (DbState.mk [rowMixed] 2).rows = db0.rows ++ [row] ∧
        (SuccessResp.mk "Submission created successfully" 1).submission_id =
          row.id ∧ row.question_id = "u1" ∧
        (∀ rr ∈ db0.rows, rr.question_id ≠ "u1") ∧
        ((db0.rows.map SqlRow.question_id).Nodup →
          ((DbState.mk [rowMixed] 2).rows.map SqlRow.question_id).Nodup) :=
  success_response_unique_row okEnv okOra "u1" db0 subMixed ⟨[rowMixed], 2⟩
    [callMixed] ⟨"Submission created successfully", 1⟩ (by rfl)

/-- Witness for C9: the decode failure of the concrete bad item produces
an error from the taxonomy with its detail message. -/
theorem pipeline_errors_have_details_witness :
    ((HErr.mk 400 "Error decoding image data: Invalid base64-encoded string").status
          = 400 ∧
        ∃ e,
          (HErr.mk 400
                "Error decoding image data: Invalid base64-encoded string").detail =
            "Error decoding image data: " ++ e) ∨
      ((HErr.mk 400
            "Error decoding image data: Invalid base64-encoded string").status
          = 500 ∧
        ∃ s,
          (HErr.mk 400
                "Error decoding image data: Invalid base64-encoded string").detail =
            "Error uploading image: " ++ s) :=
  pipeline_errors_have_details okEnv "u1" [itemBad] 1 []
    ⟨400, "Error decoding image data: Invalid base64-encoded string"⟩
    (by rfl)

/-- Claim C10: a submission with an empty item list and a well-formed
filter is accepted — zero upload calls, a record with an empty `data`
sequence is persisted, and the success response carries the new row's
surrogate id. -/
theorem empty_data_accepted (env : Env) (ora : DbOracle) (uuid : String)
    (st : DbState) (flt : FilterModel)
    (hex : ora.executeFail = none) (hcm : ora.commitFail = none)
    (hft : ora.fetchFail = none)
    (hfresh : ∀ rr ∈ st.rows, rr.question_id ≠ uuid) :
    create_submission env ora uuid st ⟨[], flt⟩ =
      (⟨st.rows ++ [⟨st.nextId, uuid, SqlVal.textArray flt.materia,
          SqlVal.textArray flt.assunto, SqlVal.textArray flt.subAssunto,
          SqlVal.text flt.faculdade, SqlVal.text flt.ano, []⟩],
        st.nextId + 1⟩, [],
        Except.ok ⟨"Submission created successfully", st.nextId⟩) := by
  have hexe := executeInsert_of_fresh ora st uuid flt [] hex hfresh
  simp [create_submission, processItems, persistRecord, hexe, hcm, hft]

/-- Witness for C10: the empty submission against the empty table. -/
theorem empty_data_accepted_witness :
    create_submission okEnv okOra "u1" db0 subEmpty =
      (⟨db0.rows ++ [rowEmpty], db0.nextId + 1⟩, [],
        Except.ok ⟨"Submission created successfully", db0.nextId⟩) :=
  empty_data_accepted okEnv okOra "u1" db0 flt0 rfl rfl rfl
    (by intro rr hrr; simp [db0] at hrr)

end Vupi
